import Mathlib

/-!
# snowman: `internal/sparql/sparql.go`

A shallow embedding of the SPARQL repository of snowman (`NewRepository`,
`QueryCall`, `Query`, `DynamicQuery`) and the properties of its query cache.

Modelling conventions.

* A Go `string` is a Lean `String`; `[]byte(s)` is its UTF-8 encoding.
* The process environment is explicit state: `World` holds the regular files
  (path and contents), the directories, the HTTP requests sent so far and the
  lines printed.  A path is the name of a file: two different path strings
  name two different files (no links, no aliasing of spellings).
* Whatever the outside decides during one call (the answer of the endpoint,
  an operating-system error of a file operation) is an `Env`.  An `Env` field
  set to `none` means that the operation meets no error from the outside.
* A function of the source returning `(T, error)` returns `Except Error T`
  together with the new state.
* `sparql.ParseJSON` followed by `Solutions()` is a parameter `ParseJSON`
  (the parsing library is not part of this repository).
* A `Repository` is one whose map `CacheHashes` is allocated, as `NewRepository`
  makes it.
* `CacheLocation` is the package variable at the value of its declaration;
  nothing in the package assigns to it.
-/

set_option linter.unusedVariables false
set_option maxRecDepth 100000

/-- Go's `error` values, by their message. -/
abbrev Error := String

/-! ## `crypto/sha256` and `encoding/hex` -/

namespace sha256

def K : List Nat := [
  0x428a2f98, 0x71374491, 0xb5c0fbcf, 0xe9b5dba5, 0x3956c25b, 0x59f111f1, 0x923f82a4, 0xab1c5ed5,
  0xd807aa98, 0x12835b01, 0x243185be, 0x550c7dc3, 0x72be5d74, 0x80deb1fe, 0x9bdc06a7, 0xc19bf174,
  0xe49b69c1, 0xefbe4786, 0x0fc19dc6, 0x240ca1cc, 0x2de92c6f, 0x4a7484aa, 0x5cb0a9dc, 0x76f988da,
  0x983e5152, 0xa831c66d, 0xb00327c8, 0xbf597fc7, 0xc6e00bf3, 0xd5a79147, 0x06ca6351, 0x14292967,
  0x27b70a85, 0x2e1b2138, 0x4d2c6dfc, 0x53380d13, 0x650a7354, 0x766a0abb, 0x81c2c92e, 0x92722c85,
  0xa2bfe8a1, 0xa81a664b, 0xc24b8b70, 0xc76c51a3, 0xd192e819, 0xd6990624, 0xf40e3585, 0x106aa070,
  0x19a4c116, 0x1e376c08, 0x2748774c, 0x34b0bcb5, 0x391c0cb3, 0x4ed8aa4a, 0x5b9cca4f, 0x682e6ff3,
  0x748f82ee, 0x78a5636f, 0x84c87814, 0x8cc70208, 0x90befffa, 0xa4506ceb, 0xbef9a3f7, 0xc67178f2]

/-- Addition of 32-bit words. -/
def add32 (a b : Nat) : Nat := (a + b) % 2 ^ 32

/-- Rotation of a 32-bit word to the right. -/
def rotr (x n : Nat) : Nat := ((x >>> n) ||| (x <<< (32 - n))) % 2 ^ 32

/-- Complement of a 32-bit word. -/
def not32 (x : Nat) : Nat := 2 ^ 32 - 1 - x % 2 ^ 32

/-- The eight 32-bit words of the hash state. -/
structure Digest where
  h0 : Nat
  h1 : Nat
  h2 : Nat
  h3 : Nat
  h4 : Nat
  h5 : Nat
  h6 : Nat
  h7 : Nat

def init : Digest :=
  ⟨0x6a09e667, 0xbb67ae85, 0x3c6ef372, 0xa54ff53a, 0x510e527f, 0x9b05688c, 0x1f83d9ab, 0x5be0cd19⟩

/-- One of the 64 rounds, on a round constant and a word of the schedule. -/
def round (s : Digest) (kw : Nat × Nat) : Digest :=
  let S1 := rotr s.h4 6 ^^^ rotr s.h4 11 ^^^ rotr s.h4 25
  let ch := (s.h4 &&& s.h5) ^^^ (not32 s.h4 &&& s.h6)
  let t1 := add32 (add32 (add32 (add32 s.h7 S1) ch) kw.1) kw.2
  let S0 := rotr s.h0 2 ^^^ rotr s.h0 13 ^^^ rotr s.h0 22
  let maj := (s.h0 &&& s.h1) ^^^ (s.h0 &&& s.h2) ^^^ (s.h1 &&& s.h2)
  let t2 := add32 S0 maj
  ⟨add32 t1 t2, s.h0, s.h1, s.h2, add32 s.h3 t1, s.h4, s.h5, s.h6⟩

/-- Extends the message schedule, held newest word first, by `n` words. -/
def schedule : Nat → List Nat → List Nat
  | 0, w => w
  | n + 1, w =>
    let w2 := w.getD 1 0
    let w7 := w.getD 6 0
    let w15 := w.getD 14 0
    let w16 := w.getD 15 0
    let s0 := rotr w15 7 ^^^ rotr w15 18 ^^^ (w15 >>> 3)
    let s1 := rotr w2 17 ^^^ rotr w2 19 ^^^ (w2 >>> 10)
    schedule n (add32 (add32 (add32 w16 s0) w7) s1 :: w)

/-- The big-endian word made of the first four bytes. -/
def word (b : List Nat) : Nat :=
  b.getD 0 0 * 2 ^ 24 + b.getD 1 0 * 2 ^ 16 + b.getD 2 0 * 2 ^ 8 + b.getD 3 0

def words : Nat → List Nat → List Nat
  | 0, _ => []
  | n + 1, b => word b :: words n (b.drop 4)

/-- Compression of one 64-byte block. -/
def block (s : Digest) (b : List Nat) : Digest :=
  let w := (schedule 48 (words 16 b).reverse).reverse
  let t := (K.zip w).foldl round s
  ⟨add32 s.h0 t.h0, add32 s.h1 t.h1, add32 s.h2 t.h2, add32 s.h3 t.h3,
   add32 s.h4 t.h4, add32 s.h5 t.h5, add32 s.h6 t.h6, add32 s.h7 t.h7⟩

def blocks : Nat → Digest → List Nat → Digest
  | 0, s, _ => s
  | n + 1, s, b => blocks n (block s b) (b.drop 64)

/-- The `n` low bytes of `x`, most significant first. -/
def be (n : Nat) (x : Nat) : List Nat :=
  (List.range n).reverse.map fun i => (x >>> (8 * i)) % 256

/-- Padding of the message to a whole number of blocks: a bit 1, zeros and the length in bits. -/
def pad (m : List Nat) : List Nat :=
  m ++ 0x80 :: List.replicate ((119 - m.length % 64) % 64) 0 ++ be 8 (8 * m.length)

/-- SHA-256 (FIPS 180-4) of a byte sequence, as `sha256.Sum256` of Go's library: 32 bytes. -/
def Sum256 (data : List Nat) : List Nat :=
  let p := pad data
  let d := blocks (p.length / 64) init p
  [d.h0, d.h1, d.h2, d.h3, d.h4, d.h5, d.h6, d.h7].flatMap (be 4)

end sha256

namespace hex

def hextable : List Char := "0123456789abcdef".data

/-- Go's `hex.EncodeToString`: two lower-case hexadecimal digits for each byte. -/
def EncodeToString (src : List Nat) : String :=
  ⟨src.flatMap fun b => [hextable.getD (b / 16 % 16) '0', hextable.getD (b % 16) '0']⟩

end hex

/-- The conversion `[]byte(s)`: the UTF-8 encoding of the text. -/
def bytes (s : String) : List Nat :=
  s.data.flatMap fun c => (String.utf8EncodeChar c).map UInt8.toNat

/-! ## `strings.Replace` -/

namespace strings

/-- Replacement of the empty string: `new` goes in front of each character and at the end,
at most `n` times. -/
def replaceEmpty (new : List Char) : Nat → List Char → List Char
  | 0, s => s
  | _ + 1, [] => new
  | n + 1, c :: t => new ++ c :: replaceEmpty new n t

/-- Left-to-right replacement of the non-overlapping occurrences of a non-empty `old`,
at most `n` of them; `skip` counts the characters of an occurrence still to be dropped. -/
def replaceFrom (old new : List Char) : Nat → Nat → List Char → List Char
  | _, _, [] => []
  | n, skip + 1, _ :: t => replaceFrom old new n skip t
  | 0, 0, c :: t => c :: t
  | n + 1, 0, c :: t =>
    if old.isPrefixOf (c :: t) then new ++ replaceFrom old new n (old.length - 1) t
    else c :: replaceFrom old new (n + 1) 0 t

/-- Go's `strings.Replace(s, old, new, n)`: a copy of `s` with the first `n` non-overlapping
instances of `old` replaced by `new`; no limit when `n < 0`. -/
def Replace (s old new : String) (n : Int) : String :=
  if old = new ∨ n = 0 then s
  else
    let m := if n < 0 then s.length + 1 else n.toNat
    if old.data = [] then ⟨replaceEmpty new.data m s.data⟩
    else ⟨replaceFrom old.data new.data m 0 s.data⟩

end strings

/-! ## `path/filepath` -/

namespace filepath

/-- The elements of a path between its separators. -/
def split : List Char → List (List Char)
  | [] => [[]]
  | c :: cs =>
    if c = '/' then [] :: split cs
    else match split cs with
      | [] => [[c]]
      | e :: es => (c :: e) :: es

/-- The lexical processing of `Clean` on the elements; `acc` holds the kept ones, last first. -/
def cleanElems (rooted : Bool) (acc : List (List Char)) : List (List Char) → List (List Char)
  | [] => acc.reverse
  | e :: es =>
    if e = [] ∨ e = ['.'] then cleanElems rooted acc es
    else if e = ['.', '.'] then
      match acc with
      | a :: acc' =>
        if a = ['.', '.'] then cleanElems rooted (e :: acc) es else cleanElems rooted acc' es
      | [] => if rooted then cleanElems rooted [] es else cleanElems rooted [e] es
    else cleanElems rooted (e :: acc) es

/-- Go's `filepath.Clean` with separator `/`: the shortest equivalent path. -/
def Clean (path : String) : String :=
  if path = "" then "."
  else
    let rooted := path.data.head? = some '/'
    let out : String := ⟨List.intercalate ['/'] (cleanElems rooted [] (split path.data))⟩
    if rooted then "/" ++ out else if out = "" then "." else out

/-- The path up to and including its last separator. -/
def dirPart (path : List Char) : List Char :=
  (path.reverse.dropWhile fun c => c != '/').reverse

/-- The last element of the path, after its last separator. -/
def lastElem (path : List Char) : List Char :=
  (path.reverse.takeWhile fun c => c != '/').reverse

/-- Go's `filepath.Dir`: all but the last element of the path, cleaned. -/
def Dir (path : String) : String := Clean ⟨dirPart path.data⟩

end filepath

/-! ## The outside world -/

/-- A `*http.Client`, by the identity of the client it points to. -/
structure HttpClient where
  id : Nat
deriving DecidableEq, Repr

namespace http

/-- The client of the library, `http.DefaultClient`. -/
def DefaultClient : HttpClient := ⟨0⟩

def StatusOK : Nat := 200

/-- What `Client.Do` hands back: the status code and the outcome of reading the whole body. -/
structure Response where
  StatusCode : Nat
  Body : Except Error String

end http

/-- The state of the process and of the machine it runs on. -/
structure World where
  /-- The regular files: path and contents. -/
  files : List (String × String)
  /-- The directories. -/
  dirs : List String
  /-- The HTTP requests sent: client, address and the `query` field of the form. -/
  posts : List (HttpClient × String × String)
  /-- The invocations of `QueryCall`, by their query text (kept for the proofs only). -/
  calls : List String
  /-- The lines written to the standard output. -/
  stdout : List String

/-- What the outside decides during one call: the answer of the endpoint and the
operating-system errors of the file operations (`none`: no error from the outside). -/
structure Env where
  /-- The error of `http.NewRequest` for an address, if it rejects it. -/
  NewRequest : String → Option Error
  /-- The outcome of `Client.Do` for a client, an address and a query. -/
  Do : HttpClient → String → String → Except Error http.Response
  ReadDir : Option Error
  MkdirAll : Option Error
  Create : Option Error
  /-- A failing write: the number of characters that reached the file, and the error. -/
  WriteString : Option (Nat × Error)
  Sync : Option Error
  Open : Option Error
  Stat : Option Error
  ReadFile : Option Error

namespace World

/-- The contents of the regular file at `path`, if there is one. -/
def read (w : World) (path : String) : Option String := w.files.lookup path

/-- The file at `path` gets the contents `data`; every other file stays. -/
def write (w : World) (path data : String) : World :=
  { w with files := (path, data) :: w.files.filter fun e => e.1 != path }

end World

namespace os

/-- The path itself and the paths of the directories above it, outermost first. -/
def ancestors (path : String) : List String :=
  let elems := (filepath.split path.data).filter fun e => e != []
  let rooted := path.data.head? = some '/'
  (List.range elems.length).map fun i =>
    (⟨(if rooted then ['/'] else []) ++ List.intercalate ['/'] (elems.take (i + 1))⟩ : String)

/-- Go's `os.MkdirAll`: makes the directory `path` and the missing directories above it. -/
def MkdirAll (env : Env) (path : String) (w : World) : Option Error × World :=
  match env.MkdirAll with
  | some err => (some err, w)
  | none => (none, { w with dirs := w.dirs ++ (ancestors path).filter fun d => !w.dirs.contains d })

/-- Go's `os.Create`: makes the file or truncates the one that is there. -/
def Create (env : Env) (path : String) (w : World) : Option Error × World :=
  match env.Create with
  | some err => (some err, w)
  | none => (none, w.write path "")

/-- The method `WriteString` of a file just created at `path`. -/
def WriteString (env : Env) (path data : String) (w : World) : Option Error × World :=
  match env.WriteString with
  | some (n, err) => (some err, w.write path ⟨data.data.take n⟩)
  | none => (none, w.write path data)

/-- The method `Sync` of a file: nothing that the model sees changes. -/
def Sync (env : Env) (w : World) : Option Error × World := (env.Sync, w)

/-- Go's `os.Open` and the reading of the whole file through the reader; a directory opens,
and the reading of it fails. -/
def Open (env : Env) (path : String) (w : World) : Except Error String :=
  match env.Open with
  | some err => .error err
  | none =>
    match w.read path with
    | none =>
      if path ∈ w.dirs then .error ("read " ++ path ++ ": is a directory")
      else .error ("open " ++ path ++ ": no such file or directory")
    | some data => .ok data

/-- Go's `os.Stat`, for its error only. -/
def Stat (env : Env) (path : String) (w : World) : Option Error :=
  match env.Stat with
  | some err => some err
  | none =>
    if (w.read path).isSome ∨ path ∈ w.dirs then none
    else some ("stat " ++ path ++ ": no such file or directory")

end os

namespace ioutil

/-- Go's `ioutil.ReadDir`: the names of the files and directories in `dirname`, sorted. It
fails on a directory that is not there: one that is neither recorded, nor the current or the
root directory, nor the place of any file or directory. -/
def ReadDir (env : Env) (dirname : String) (w : World) : Except Error (List String) :=
  match env.ReadDir with
  | some err => .error err
  | none =>
    let inDir := fun (p : String) => decide (filepath.Dir p = filepath.Clean dirname)
    let names := ((w.files.map Prod.fst ++ w.dirs).filter inDir).map fun p =>
      (⟨filepath.lastElem p.data⟩ : String)
    if names = [] ∧ filepath.Clean dirname ∉ w.dirs ∧ filepath.Clean dirname ≠ "."
        ∧ filepath.Clean dirname ≠ "/" then
      .error ("open " ++ dirname ++ ": no such file or directory")
    else .ok (names.insertionSort fun a b => a < b ∨ a = b)

/-- Go's `ioutil.ReadFile`. -/
def ReadFile (env : Env) (path : String) (w : World) : Except Error String :=
  match env.ReadFile with
  | some err => .error err
  | none =>
    match w.read path with
    | none =>
      if path ∈ w.dirs then .error ("read " ++ path ++ ": is a directory")
      else .error ("open " ++ path ++ ": no such file or directory")
    | some data => .ok data

end ioutil

/-- Go's `fmt.Println` of one string. -/
def Println (line : String) (w : World) : World := { w with stdout := w.stdout ++ [line] }

/-! ## The repository -/

/-- The package variable `CacheLocation`, at the value it is declared with. -/
def CacheLocation : String := ".snowman/cache/"

/-- The `Repository` struct; `CacheHashes` is a `map[string]bool`, `false` at a missing key. -/
structure Repository where
  Endpoint : String
  Client : HttpClient
  CacheDefault : Bool
  CacheHashes : String → Bool

/-- The assignment `m[key] = true`. -/
def markHash (m : String → Bool) (key : String) : String → Bool :=
  fun k => if k = key then true else m k

/-- The source's `NewRepository`. -/
def NewRepository (env : Env) (w : World) (endpoint : String) (client : HttpClient)
    (cacheDefault : Bool) : Except Error Repository :=
  let repo : Repository :=
    { Endpoint := endpoint
      Client := http.DefaultClient
      CacheDefault := cacheDefault
      CacheHashes := fun _ => false }
  if cacheDefault then
    match ioutil.ReadDir env CacheLocation w with
    | .error err => .error err
    | .ok cacheFiles =>
      .ok (cacheFiles.foldl
        (fun repo f =>
          let fileCacheHash := strings.Replace f ".json" "" 1
          { repo with CacheHashes := markHash repo.CacheHashes fileCacheHash })
        repo)
  else .ok repo

/-- The source's `QueryCall`: one POST of the query to the endpoint. The form body
`query=<escaped query>` and the headers are recorded by the query text alone. -/
def QueryCall (env : Env) (r : Repository) (w : World) (query : String) :
    Except Error String × World :=
  let w := { w with calls := w.calls ++ [query] }
  match env.NewRequest r.Endpoint with
  | some err => (.error err, w)
  | none =>
    let w := { w with posts := w.posts ++ [(r.Client, r.Endpoint, query)] }
    match env.Do r.Client r.Endpoint query with
    | .error err => (.error err, w)
    | .ok resp =>
      if resp.StatusCode ≠ http.StatusOK then
        (.error "Received bad response from SPARQL endpoint.", w)
      else
        match resp.Body with
        | .error err => (.error err, w)
        | .ok bodyBytes => (.ok bodyBytes, w)

/-- The identifier of a query: `hex.EncodeToString` of `sha256.Sum256([]byte(query))`. -/
def hashString (query : String) : String := hex.EncodeToString (sha256.Sum256 (bytes query))

/-- The path of the cache entry of a query. -/
def queryCacheLocation (query : String) : String := CacheLocation ++ hashString query ++ ".json"

section
variable {Row : Type} (ParseJSON : String → Except Error (List Row))

/-- The end of `Query`, from `os.Open` on: the entry file is opened and parsed. -/
def Query.readEntry (env : Env) (r : Repository) (w : World) (path : String) :
    Except Error (List Row) × Repository × World :=
  match os.Open env path w with
  | .error err => (.error err, r, w)
  | .ok reader =>
    match ParseJSON reader with
    | .error err => (.error err, r, w)
    | .ok parsedResponse => (.ok parsedResponse, r, w)

/-- The source's `Query`: the result, the repository and the world after the call. -/
def Query (env : Env) (r : Repository) (w : World) (query : String) :
    Except Error (List Row) × Repository × World :=
  let hashString := hashString query
  let queryCacheLocation := CacheLocation ++ hashString ++ ".json"
  if !r.CacheDefault || !r.CacheHashes hashString then
    match QueryCall env r w query with
    | (.error err, w) => (.error err, r, w)
    | (.ok jsonBody, w) =>
      match os.MkdirAll env (filepath.Dir queryCacheLocation) w with
      | (some err, w) => (.error err, r, w)
      | (none, w) =>
        match os.Create env queryCacheLocation w with
        | (some err, w) => (.error err, r, w)
        | (none, w) =>
          match os.WriteString env queryCacheLocation jsonBody w with
          | (some err, w) => (.error err, r, w)
          | (none, w) =>
            let w := (os.Sync env w).2
            let r := { r with CacheHashes := markHash r.CacheHashes hashString }
            Query.readEntry ParseJSON env r w queryCacheLocation
  else Query.readEntry ParseJSON env r w queryCacheLocation

/-- The source's `DynamicQuery`. -/
def DynamicQuery (env : Env) (r : Repository) (w : World) (queryLocation argument : String) :
    Except Error (List Row) × Repository × World :=
  let w := Println ("Issuing dynamic query " ++ queryLocation ++ " with argument " ++ argument) w
  let queryPath := "queries/" ++ queryLocation ++ ".rq"
  match os.Stat env queryPath w with
  | some err => (.error err, r, w)
  | none =>
    match ioutil.ReadFile env queryPath w with
    | .error err => (.error err, r, w)
    | .ok sparqlBytes =>
      let sparqlString := strings.Replace sparqlBytes "\x7b\x7b.\x7d\x7d" argument 1
      match Query ParseJSON env r w sparqlString with
      | (.error err, r, w) => (.error err, r, w)
      | (.ok parsedResponse, r, w) => (.ok parsedResponse, r, w)

end

/-! ## Notions of the specification and sample data -/

/-- The file operations of a miss meet no error from the outside: the directory is made,
the entry file is created and written, and it opens for reading. -/
def Env.filesOk (env : Env) : Prop :=
  env.MkdirAll = none ∧ env.Create = none ∧ env.WriteString = none ∧ env.Open = none

/-- The test of `Query`: the transport layer is called. -/
def Repository.misses (r : Repository) (query : String) : Bool :=
  !r.CacheDefault || !r.CacheHashes (hashString query)

/-- The world right after a successful miss on `query` with body `body`, from the world `w`
in which `QueryCall` ended. -/
def World.stored (w : World) (query body : String) : World :=
  World.write
    { w with
      dirs := w.dirs ++ (os.ancestors (filepath.Dir (queryCacheLocation query))).filter
        (fun d => !w.dirs.contains d) }
    (queryCacheLocation query) body

/-- An endpoint that answers every query with status 200 and the body `body`, on a machine
whose file operations all go well. -/
def sampleEnv (body : String) : Env :=
  { NewRequest := fun _ => none
    Do := fun _ _ _ => .ok ⟨200, .ok body⟩
    ReadDir := none
    MkdirAll := none
    Create := none
    WriteString := none
    Sync := none
    Open := none
    Stat := none
    ReadFile := none }

/-- A machine with no file and nothing sent yet. -/
def emptyWorld : World := ⟨[], [], [], [], []⟩

/-- A repository with an empty index, as `NewRepository` makes it when caching is off or the
cache directory is empty. -/
def sampleRepo (cacheDefault : Bool) : Repository :=
  ⟨"http://localhost/sparql", http.DefaultClient, cacheDefault, fun _ => false⟩

/-- A stand-in for the parser: a body is accepted unless it is empty, and gives one row. -/
def sampleParse (body : String) : Except Error (List String) :=
  if body = "" then .error "unexpected end of JSON input" else .ok [body]

/-- An endpoint that answers every query with status 500. -/
def failingEnv : Env :=
  { sampleEnv "" with Do := fun _ _ _ => .ok ⟨500, .ok "Internal Server Error"⟩ }

/-- A machine whose disk refuses to flush, with an endpoint that answers `body`. -/
def syncFailingEnv : Env :=
  { sampleEnv "body" with Sync := some "sync: input/output error" }

/-- A machine holding an entry file for the query `Q` from an earlier run, and a file that
is not a cache entry. -/
def staleWorld : World :=
  ⟨[(queryCacheLocation "Q", "old"), ("notes.txt", "keep")], [".snowman", ".snowman/cache"],
    [], [], []⟩

/-- A machine holding two query files: one with the placeholder, one without. -/
def templateWorld : World :=
  ⟨[("queries/byId.rq", "SELECT * WHERE \x7b ?s ?p \"\x7b\x7b.\x7d\x7d\" \x7d"),
    ("queries/all.rq", "SELECT * WHERE \x7b ?s ?p ?o \x7d")], ["queries"], [], [], []⟩

/-- The machine left by an earlier run in which `Query` on `Q` was answered `body`. -/
def laterWorld : World :=
  (Query sampleParse (sampleEnv "body") (sampleRepo false) emptyWorld "Q").2.2

/-- A repository with caching enabled whose index knows every identifier. -/
def knowingRepo : Repository := { sampleRepo true with CacheHashes := fun _ => true }

/-! ## Facts about the identifier -/

theorem sha256.be_four (x : Nat) : (sha256.be 4 x).length = 4 := by
  simp [sha256.be]

theorem sha256.Sum256_length (data : List Nat) : (sha256.Sum256 data).length = 32 := by
  simp [sha256.Sum256, sha256.be_four]

theorem hex.digit_mem (k : Nat) : hex.hextable.getD (k % 16) '0' ∈ hex.hextable := by
  have h : k % 16 < 16 := Nat.mod_lt _ (by decide)
  interval_cases (k % 16) <;> decide

theorem hex.EncodeToString_data_length (src : List Nat) :
    (hex.EncodeToString src).data.length = 2 * src.length := by
  induction src with
  | nil => rfl
  | cons b t ih =>
    simp only [hex.EncodeToString, List.flatMap_cons, List.length_append, List.length_cons,
      List.length_nil] at ih ⊢
    omega

theorem hex.EncodeToString_mem (src : List Nat) :
    ∀ c ∈ (hex.EncodeToString src).data, c ∈ hex.hextable := by
  intro c hc
  simp only [hex.EncodeToString, List.mem_flatMap, List.mem_cons, List.mem_singleton,
    List.not_mem_nil, or_false] at hc
  obtain ⟨b, -, rfl | rfl⟩ := hc
  · exact hex.digit_mem _
  · exact hex.digit_mem _

theorem hashString_length (query : String) : (hashString query).length = 64 := by
  have h := hex.EncodeToString_data_length (sha256.Sum256 (bytes query))
  rw [sha256.Sum256_length] at h
  exact h

theorem hashString_hex (query : String) : ∀ c ∈ (hashString query).data, c ∈ hex.hextable :=
  hex.EncodeToString_mem _

/-- The identifier of the empty query: the digest of the empty message. -/
theorem hashString_empty :
    hashString "" = "e3b0c44298fc1c149afbf4c8996fb92427ae41e4649b934ca495991b7852b855" := by
  decide

/-- The identifier of the one-block message of the standard. -/
theorem hashString_abc :
    hashString "abc" = "ba7816bf8f01cfea414140de5dae2223b00361a396177a9cb410ff61f20015ad" := by
  decide

/-- The identifier of the two-block message of the standard. -/
theorem hashString_two_blocks :
    hashString "abcdbcdecdefdefgefghfghighijhijkijkljklmklmnlmnomnopnopq"
      = "248d6a61d20638b8e5c026930c3e6039a33ce45964ff2167f6ecedd419db06c1" := by
  decide

theorem hex.ne_dot {c : Char} (h : c ∈ hex.hextable) : c ≠ '.' := by
  rintro rfl
  revert h
  decide

theorem hex.ne_slash {c : Char} (h : c ∈ hex.hextable) : c ≠ '/' := by
  rintro rfl
  revert h
  decide

/-! ## Facts about `strings.Replace` -/

theorem strings.replaceFrom_zero (old new : List Char) (k : Nat) (s : List Char) :
    strings.replaceFrom old new 0 k s = s.drop k := by
  induction s generalizing k with
  | nil => simp [strings.replaceFrom]
  | cons c t ih =>
    cases k with
    | zero => simp [strings.replaceFrom]
    | succ k => simp [strings.replaceFrom, ih]

/-- At an occurrence of `old` in front, one replacement puts `new` there and keeps the rest. -/
theorem strings.replaceFrom_here (old new post : List Char) (hold : old ≠ []) :
    strings.replaceFrom old new 1 0 (old ++ post) = new ++ post := by
  obtain ⟨c, t, rfl⟩ := List.exists_cons_of_ne_nil hold
  have hp : (c :: t).isPrefixOf (c :: (t ++ post)) = true := by
    rw [List.isPrefixOf_iff_prefix]
    exact ⟨post, rfl⟩
  rw [List.cons_append, strings.replaceFrom, if_pos hp, strings.replaceFrom_zero]
  simp

/-- Where `old` is not in front, the first character is kept. -/
theorem strings.replaceFrom_skip (old new : List Char) (n : Nat) (c : Char) (t : List Char)
    (h : ¬ old <+: c :: t) :
    strings.replaceFrom old new (n + 1) 0 (c :: t) = c :: strings.replaceFrom old new (n + 1) 0 t := by
  have hp : ¬ (old.isPrefixOf (c :: t) = true) := by
    rwa [List.isPrefixOf_iff_prefix]
  rw [strings.replaceFrom, if_neg hp]

/-- One replacement acts on the first occurrence only: the text before it and the text
after it, later occurrences included, stay. -/
theorem strings.replaceFrom_first (old new : List Char) (hold : old ≠ [])
    (pre post : List Char)
    (hfirst : ∀ k, k < pre.length → ¬ old <+: (pre ++ old ++ post).drop k) :
    strings.replaceFrom old new 1 0 (pre ++ old ++ post) = pre ++ new ++ post := by
  induction pre with
  | nil => simpa using strings.replaceFrom_here old new post hold
  | cons c pre ih =>
    have hno : ¬ old <+: c :: (pre ++ old ++ post) := by
      simpa using hfirst 0 (by simp)
    have ih' := ih (fun k hk => by
      simpa using hfirst (k + 1) (by simpa using hk))
    simp only [List.cons_append]
    rw [strings.replaceFrom_skip old new 0 c _ hno, ih']

/-- Without an occurrence of `old` nothing is replaced. -/
theorem strings.replaceFrom_none (old new : List Char) (n : Nat) (s : List Char)
    (h : ¬ old <:+: s) : strings.replaceFrom old new n 0 s = s := by
  induction s with
  | nil => simp [strings.replaceFrom]
  | cons c t ih =>
    cases n with
    | zero => simp [strings.replaceFrom]
    | succ n =>
      have hno : ¬ old <+: c :: t := fun hp => h hp.isInfix
      have ht : ¬ old <:+: t := fun hi => h (hi.trans (List.suffix_cons c t).isInfix)
      rw [strings.replaceFrom_skip old new n c t hno, ih ht]

/-- The value of `strings.Replace` with count 1 for a non-empty `old` different from `new`. -/
theorem strings.Replace_one (s old new : String) (hne : old ≠ new) (hold : old.data ≠ []) :
    strings.Replace s old new 1 = ⟨strings.replaceFrom old.data new.data 1 0 s.data⟩ := by
  simp [strings.Replace, hne, hold]

/-- Stripping `.json` once from a name without a dot before its extension gives the name. -/
theorem strings.Replace_json (name : String) (h : ∀ c ∈ name.data, c ≠ '.') :
    strings.Replace (name ++ ".json") ".json" "" 1 = name := by
  rw [strings.Replace_one _ _ _ (by decide) (by decide)]
  apply String.ext
  simp only [String.data_append]
  generalize name.data = l at h
  induction l with
  | nil => decide
  | cons c t ih =>
    have hc : c ≠ '.' := h c (List.mem_cons_self _ _)
    have hno : ¬ ".json".data <+: c :: (t ++ ".json".data) := by
      rintro ⟨u, hu⟩
      have := List.head_eq_of_cons_eq hu
      exact hc this.symm
    rw [List.cons_append, strings.replaceFrom_skip _ _ 0 c _ hno,
      ih (fun a ha => h a (List.mem_cons_of_mem _ ha))]

/-! ## Facts about the file system -/

theorem lookup_filter_ne (fs : List (String × String)) (p q : String) (h : q ≠ p) :
    (fs.filter fun e => e.1 != p).lookup q = fs.lookup q := by
  induction fs with
  | nil => rfl
  | cons e t ih =>
    obtain ⟨k, v⟩ := e
    by_cases hk : k = p
    · subst hk
      have hq : (q == k) = false := by simpa using h
      simp [List.filter, List.lookup, hq, ih]
    · have hkp : (k != p) = true := by simpa using hk
      by_cases hqk : q = k
      · subst hqk
        simp [List.filter, hkp, List.lookup]
      · have hq : (q == k) = false := by simpa using hqk
        simp [List.filter, hkp, List.lookup, hq, ih]

theorem World.read_write_same (w : World) (p d : String) : (w.write p d).read p = some d := by
  simp [World.read, World.write, List.lookup]

theorem World.read_write_other (w : World) (p d q : String) (h : q ≠ p) :
    (w.write p d).read q = w.read q := by
  have hq : (q == p) = false := by simpa using h
  simp only [World.read, World.write, List.lookup, hq]
  exact lookup_filter_ne w.files p q h

theorem World.write_write (w : World) (p d d' : String) :
    (w.write p d).write p d' = w.write p d' := by
  have h : ((w.files.filter fun e => e.1 != p).filter fun e => e.1 != p)
      = w.files.filter fun e => e.1 != p := by
    rw [List.filter_filter]
    simp
  simp [World.write, List.filter, h]

theorem World.read_stored (w : World) (q body : String) :
    (w.stored q body).read (queryCacheLocation q) = some body :=
  World.read_write_same _ _ _

theorem lookup_mem (fs : List (String × String)) (p d : String) (h : fs.lookup p = some d) :
    p ∈ fs.map Prod.fst := by
  induction fs with
  | nil => simp [List.lookup] at h
  | cons e t ih =>
    obtain ⟨k, v⟩ := e
    by_cases hk : p = k
    · simp [hk]
    · have hq : (p == k) = false := by simpa using hk
      simp only [List.lookup, hq] at h
      simp [ih h]

/-! ## Facts about `QueryCall` -/

theorem QueryCall_files (env : Env) (r : Repository) (w : World) (q : String) :
    (QueryCall env r w q).2.files = w.files ∧ (QueryCall env r w q).2.dirs = w.dirs
      ∧ (QueryCall env r w q).2.stdout = w.stdout := by
  unfold QueryCall
  cases env.NewRequest r.Endpoint with
  | some err => simp
  | none =>
    simp only
    cases env.Do r.Client r.Endpoint q with
    | error err => simp
    | ok resp =>
      simp only
      split
      · simp
      · cases resp.Body <;> simp

theorem QueryCall_calls (env : Env) (r : Repository) (w : World) (q : String) :
    (QueryCall env r w q).2.calls = w.calls ++ [q] := by
  unfold QueryCall
  cases env.NewRequest r.Endpoint with
  | some err => simp
  | none =>
    simp only
    cases env.Do r.Client r.Endpoint q with
    | error err => simp
    | ok resp =>
      simp only
      split
      · simp
      · cases resp.Body <;> simp

theorem QueryCall_posts (env : Env) (r : Repository) (w : World) (q : String) :
    (QueryCall env r w q).2.posts =
      if env.NewRequest r.Endpoint = none then w.posts ++ [(r.Client, r.Endpoint, q)]
      else w.posts := by
  unfold QueryCall
  cases env.NewRequest r.Endpoint with
  | some err => simp
  | none =>
    simp only
    cases env.Do r.Client r.Endpoint q with
    | error err => simp
    | ok resp =>
      simp only
      split
      · simp
      · cases resp.Body <;> simp

/-- A call that returns a body has sent its request. -/
theorem QueryCall_ok_posts (env : Env) (r : Repository) (w : World) (q body : String)
    (h : (QueryCall env r w q).1 = .ok body) :
    (QueryCall env r w q).2.posts = w.posts ++ [(r.Client, r.Endpoint, q)] := by
  rw [QueryCall_posts]
  have hn : env.NewRequest r.Endpoint = none := by
    cases hreq : env.NewRequest r.Endpoint with
    | none => rfl
    | some err => simp [QueryCall, hreq] at h
  simp [hn]

/-! ## Facts about `Query` -/

section
variable {Row : Type} (ParseJSON : String → Except Error (List Row))

theorem readEntry_eq (env : Env) (r : Repository) (w : World) (p data : String)
    (hopen : env.Open = none) (hfile : w.read p = some data) :
    Query.readEntry ParseJSON env r w p = (ParseJSON data, r, w) := by
  unfold Query.readEntry os.Open
  rw [hopen]
  simp only [hfile]
  cases ParseJSON data <;> rfl

theorem readEntry_state (env : Env) (r : Repository) (w : World) (p : String) :
    (Query.readEntry ParseJSON env r w p).2 = (r, w) := by
  unfold Query.readEntry
  cases os.Open env p w with
  | error err => rfl
  | ok reader => simp only; cases ParseJSON reader <;> rfl

/-- A hit: nothing but the reading of the entry file. -/
theorem Query_hit (env : Env) (r : Repository) (w : World) (q : String)
    (h : r.misses q = false) :
    Query ParseJSON env r w q = Query.readEntry ParseJSON env r w (queryCacheLocation q) := by
  unfold Repository.misses at h
  unfold Query
  simp only [h]
  rfl

/-- A miss whose transport call fails: the error, and only the call is recorded. -/
theorem Query_miss_error (env : Env) (r : Repository) (w : World) (q : String) (err : Error)
    (h : r.misses q = true) (hcall : (QueryCall env r w q).1 = .error err) :
    Query ParseJSON env r w q = (.error err, r, (QueryCall env r w q).2) := by
  unfold Repository.misses at h
  unfold Query
  simp only [h, if_true]
  have : QueryCall env r w q = (.error err, (QueryCall env r w q).2) := by
    rw [← hcall]
  rw [this]

/-- A miss whose transport call and file operations succeed. -/
theorem Query_miss_ok (env : Env) (r : Repository) (w : World) (q body : String)
    (h : r.misses q = true) (hcall : (QueryCall env r w q).1 = .ok body) (hfs : env.filesOk) :
    Query ParseJSON env r w q =
      (ParseJSON body, { r with CacheHashes := markHash r.CacheHashes (hashString q) },
        (QueryCall env r w q).2.stored q body) := by
  obtain ⟨hmk, hcr, hwr, hop⟩ := hfs
  unfold Repository.misses at h
  have hq : QueryCall env r w q = (.ok body, (QueryCall env r w q).2) := by
    rw [← hcall]
  unfold Query
  simp only [h, if_true]
  rw [hq]
  simp only [os.MkdirAll, hmk, os.Create, hcr, os.WriteString, hwr, os.Sync,
    World.write_write]
  rw [readEntry_eq ParseJSON env _ _ _ body hop (World.read_write_same _ _ _)]
  rfl

end

section
variable {Row : Type} (ParseJSON : String → Except Error (List Row))

/-- Whatever happens after the transport call of a miss, nothing more is sent. -/
theorem Query_miss_log (env : Env) (r : Repository) (w : World) (q : String)
    (h : r.misses q = true) :
    (Query ParseJSON env r w q).2.2.calls = (QueryCall env r w q).2.calls
      ∧ (Query ParseJSON env r w q).2.2.posts = (QueryCall env r w q).2.posts := by
  unfold Repository.misses at h
  unfold Query
  simp only [h, if_true]
  rcases QueryCall env r w q with ⟨res, w1⟩
  cases res with
  | error err => exact ⟨rfl, rfl⟩
  | ok body =>
    simp only [os.MkdirAll, os.Create, os.WriteString, os.Sync]
    cases env.MkdirAll with
    | some e => exact ⟨rfl, rfl⟩
    | none =>
      cases env.Create with
      | some e => exact ⟨rfl, rfl⟩
      | none =>
        cases env.WriteString with
        | some e => exact ⟨rfl, rfl⟩
        | none => simp only [readEntry_state]; exact ⟨rfl, rfl⟩

/-- Whatever happens in a miss, only the entry file of the query can change. -/
theorem Query_miss_frame (env : Env) (r : Repository) (w : World) (q p : String)
    (h : r.misses q = true) (hp : p ≠ queryCacheLocation q) :
    (Query ParseJSON env r w q).2.2.read p = w.read p := by
  unfold Repository.misses at h
  have hfiles := (QueryCall_files env r w q).1
  have hp' : p ≠ CacheLocation ++ hashString q ++ ".json" := hp
  unfold Query
  simp only [h, if_true]
  generalize QueryCall env r w q = x at hfiles ⊢
  obtain ⟨res, w1⟩ := x
  have hw1 : w1.read p = w.read p := by
    simp only [World.read]
    exact congrArg (fun fs => List.lookup p fs) hfiles
  cases res with
  | error err => exact hw1
  | ok body =>
    simp only [os.MkdirAll, os.Create, os.WriteString, os.Sync]
    cases env.MkdirAll with
    | some e => exact hw1
    | none =>
      cases env.Create with
      | some e => exact hw1
      | none =>
        cases env.WriteString with
        | some e =>
          simp only [World.write_write]
          rw [World.read_write_other _ _ _ _ hp']
          exact hw1
        | none =>
          simp only [readEntry_state, World.write_write]
          rw [World.read_write_other _ _ _ _ hp']
          exact hw1

/-- The invocations of `QueryCall` and the requests sent by one `Query`. -/
theorem Query_log (env : Env) (r : Repository) (w : World) (Q : String) :
    (Query ParseJSON env r w Q).2.2.calls =
        (if r.CacheDefault = false ∨ r.CacheHashes (hashString Q) = false then w.calls ++ [Q]
         else w.calls)
      ∧ (Query ParseJSON env r w Q).2.2.posts =
        (if (r.CacheDefault = false ∨ r.CacheHashes (hashString Q) = false)
            ∧ env.NewRequest r.Endpoint = none
         then w.posts ++ [(r.Client, r.Endpoint, Q)]
         else w.posts) := by
  by_cases h : r.misses Q = true
  · have hc : r.CacheDefault = false ∨ r.CacheHashes (hashString Q) = false := by
      unfold Repository.misses at h
      cases hd : r.CacheDefault <;> cases hh : r.CacheHashes (hashString Q) <;> simp_all
    obtain ⟨h1, h2⟩ := Query_miss_log ParseJSON env r w Q h
    rw [h1, h2, QueryCall_calls, QueryCall_posts]
    simp [hc]
  · have h' : r.misses Q = false := by simpa using h
    have hc : ¬ (r.CacheDefault = false ∨ r.CacheHashes (hashString Q) = false) := by
      unfold Repository.misses at h'
      cases hd : r.CacheDefault <;> cases hh : r.CacheHashes (hashString Q) <;> simp_all
    rw [Query_hit ParseJSON env r w Q h', readEntry_state]
    simp [hc]

/-- A failing write of the entry file: `Query` returns the error of the write and the
repository is the one before the call. -/
theorem Query_write_failure (env : Env) (r : Repository) (w : World) (q body : String)
    (n : Nat) (err : Error) (h : r.misses q = true) (hcall : (QueryCall env r w q).1 = .ok body)
    (hmk : env.MkdirAll = none) (hcr : env.Create = none)
    (hwr : env.WriteString = some (n, err)) :
    (Query ParseJSON env r w q).1 = .error err ∧ (Query ParseJSON env r w q).2.1 = r := by
  unfold Repository.misses at h
  have hq : QueryCall env r w q = (.ok body, (QueryCall env r w q).2) := by
    rw [← hcall]
  unfold Query
  simp only [h, if_true]
  rw [hq]
  simp [os.MkdirAll, hmk, os.Create, hcr, os.WriteString, hwr]

/-- The files after a `Query`, whatever the outside does: the ones before the call, or those
with the entry file of the query written anew. -/
theorem Query_files (env : Env) (r : Repository) (w : World) (q : String) :
    (Query ParseJSON env r w q).2.2.files = w.files
      ∨ ((∃ body, (QueryCall env r w q).1 = .ok body) ∧ env.MkdirAll = none ∧ env.Create = none
        ∧ r.misses q = true
        ∧ ∃ data, (Query ParseJSON env r w q).2.2.read (queryCacheLocation q) = some data) := by
  by_cases h : r.misses q = true
  · have hfiles := (QueryCall_files env r w q).1
    have hm := h
    unfold Repository.misses at h
    unfold Query
    simp only [h, if_true]
    generalize QueryCall env r w q = x at hfiles ⊢
    obtain ⟨res, w1⟩ := x
    cases res with
    | error err => exact Or.inl hfiles
    | ok body =>
      simp only [os.MkdirAll, os.Create, os.WriteString, os.Sync]
      cases env.MkdirAll with
      | some e => exact Or.inl hfiles
      | none =>
        cases env.Create with
        | some e => exact Or.inl hfiles
        | none =>
          cases env.WriteString with
          | some e =>
            exact Or.inr ⟨⟨body, rfl⟩, rfl, rfl, hm, _, World.read_write_same _ _ _⟩
          | none =>
            refine Or.inr ⟨⟨body, rfl⟩, rfl, rfl, hm, body, ?_⟩
            rw [readEntry_state]
            exact World.read_write_same _ _ _
  · have h' : r.misses q = false := by simpa using h
    rw [Query_hit ParseJSON env r w q h', readEntry_state]
    exact Or.inl rfl

/-- A call that stops before `os.Create` has done its work changes no file. -/
theorem Query_stops_before_create (env : Env) (r : Repository) (w : World) (q : String)
    (h : (∃ err, (QueryCall env r w q).1 = .error err) ∨ env.MkdirAll ≠ none
      ∨ env.Create ≠ none) :
    (Query ParseJSON env r w q).2.2.files = w.files := by
  rcases Query_files ParseJSON env r w q with hf | ⟨⟨body, hb⟩, hmk, hcr, -, -⟩
  · exact hf
  · rcases h with ⟨err, he⟩ | hne | hne
    · rw [hb] at he
      cases he
    · exact absurd hmk hne
    · exact absurd hcr hne

/-- No file is deleted by `Query`, the entry file of the query included. -/
theorem Query_keeps_files (env : Env) (r : Repository) (w : World) (q p : String)
    (hp : (w.read p).isSome = true) : ((Query ParseJSON env r w q).2.2.read p).isSome = true := by
  by_cases hq : p = queryCacheLocation q
  · rcases Query_files ParseJSON env r w q with hf | ⟨-, -, -, -, data, hd⟩
    · have : (Query ParseJSON env r w q).2.2.read p = w.read p := by
        simp only [World.read, hf]
      rw [this]
      exact hp
    · rw [hq, hd]
      rfl
  · by_cases h : r.misses q = true
    · rw [Query_miss_frame ParseJSON env r w q p h hq]
      exact hp
    · have h' : r.misses q = false := by simpa using h
      rw [Query_hit ParseJSON env r w q h', readEntry_state]
      exact hp

end

/-! ## Facts about paths and the directory listing -/

theorem filepath.dirPart_append (d name : List Char) (hname : ∀ c ∈ name, c ≠ '/') :
    filepath.dirPart (d ++ '/' :: name) = d ++ ['/'] := by
  have h : d ++ '/' :: name = (d ++ ['/']) ++ name := by simp
  unfold filepath.dirPart
  rw [h, List.reverse_append, List.dropWhile_append_of_pos (by simpa using hname)]
  simp [List.dropWhile]

theorem filepath.lastElem_append (d name : List Char) (hname : ∀ c ∈ name, c ≠ '/') :
    filepath.lastElem (d ++ '/' :: name) = name := by
  have h : d ++ '/' :: name = (d ++ ['/']) ++ name := by simp
  unfold filepath.lastElem
  rw [h, List.reverse_append, List.takeWhile_append_of_pos (by simpa using hname)]
  simp [List.takeWhile]

/-- The characters of an entry file name: none is a separator. -/
theorem entryName_no_slash (query : String) :
    ∀ c ∈ (hashString query ++ ".json").data, c ≠ '/' := by
  intro c hc
  rw [String.data_append, List.mem_append] at hc
  rcases hc with hc | hc
  · exact hex.ne_slash (hashString_hex query c hc)
  · rintro rfl
    revert hc
    decide

theorem queryCacheLocation_data (query : String) :
    (queryCacheLocation query).data
      = ".snowman/cache".data ++ '/' :: (hashString query ++ ".json").data := by
  simp [queryCacheLocation, CacheLocation, String.data_append]

/-- The entry file of a query lies in the cache directory. -/
theorem Dir_queryCacheLocation (query : String) :
    filepath.Dir (queryCacheLocation query) = filepath.Clean CacheLocation := by
  unfold filepath.Dir
  rw [queryCacheLocation_data, filepath.dirPart_append _ _ (entryName_no_slash query)]
  decide

/-- The name of the entry file of a query in the listing of the cache directory. -/
theorem lastElem_queryCacheLocation (query : String) :
    (⟨filepath.lastElem (queryCacheLocation query).data⟩ : String) = hashString query ++ ".json" := by
  rw [queryCacheLocation_data, filepath.lastElem_append _ _ (entryName_no_slash query)]

/-- A file of the cache directory is in its listing. -/
theorem ReadDir_entry (env : Env) (w : World) (query data : String) (hdir : env.ReadDir = none)
    (hfile : w.read (queryCacheLocation query) = some data) :
    ∃ names, ioutil.ReadDir env CacheLocation w = .ok names
      ∧ hashString query ++ ".json" ∈ names := by
  have hmem : hashString query ++ ".json" ∈
      ((w.files.map Prod.fst ++ w.dirs).filter
        fun p => decide (filepath.Dir p = filepath.Clean CacheLocation)).map
        fun p => (⟨filepath.lastElem p.data⟩ : String) := by
    rw [List.mem_map]
    refine ⟨queryCacheLocation query, ?_, lastElem_queryCacheLocation query⟩
    rw [List.mem_filter]
    refine ⟨List.mem_append_left _ (lookup_mem _ _ _ hfile), ?_⟩
    simp [Dir_queryCacheLocation]
  unfold ioutil.ReadDir
  rw [hdir]
  simp only
  rw [if_neg (fun h => by rw [h.1] at hmem; exact List.not_mem_nil _ hmem)]
  exact ⟨_, rfl, (List.mem_insertionSort _).mpr hmem⟩

/-! ## Facts about `NewRepository` -/

theorem markHash_foldl_keep (names : List String) (repo : Repository) (key : String)
    (h : repo.CacheHashes key = true) :
    (names.foldl
      (fun repo f =>
        let fileCacheHash := strings.Replace f ".json" "" 1
        { repo with CacheHashes := markHash repo.CacheHashes fileCacheHash })
      repo).CacheHashes key = true := by
  induction names generalizing repo with
  | nil => exact h
  | cons n t ih =>
    apply ih
    simp [markHash, h]

theorem markHash_foldl_mem (names : List String) (repo : Repository) (name : String)
    (h : name ∈ names) :
    (names.foldl
      (fun repo f =>
        let fileCacheHash := strings.Replace f ".json" "" 1
        { repo with CacheHashes := markHash repo.CacheHashes fileCacheHash })
      repo).CacheHashes (strings.Replace name ".json" "" 1) = true := by
  induction names generalizing repo with
  | nil => simp at h
  | cons n t ih =>
    rcases List.mem_cons.mp h with rfl | ht
    · refine markHash_foldl_keep t _ _ ?_
      show markHash _ _ _ = true
      unfold markHash
      rw [if_pos rfl]
    · exact ih _ ht

theorem markHash_foldl_fields (names : List String) (repo : Repository) :
    (names.foldl
      (fun repo f =>
        let fileCacheHash := strings.Replace f ".json" "" 1
        { repo with CacheHashes := markHash repo.CacheHashes fileCacheHash })
      repo).CacheDefault = repo.CacheDefault := by
  induction names generalizing repo with
  | nil => rfl
  | cons n t ih => exact ih _

/-- The identifier of a query is its entry file name without the extension. -/
theorem Replace_entryName (query : String) :
    strings.Replace (hashString query ++ ".json") ".json" "" 1 = hashString query :=
  strings.Replace_json _ fun c hc => hex.ne_dot (hashString_hex query c hc)

/-! ## The claims -/

section
variable {Row : Type} (ParseJSON : String → Except Error (List Row))

/-- C1: `Query(Q)` invokes `QueryCall` exactly once (the record of the invocations grows by
`Q` alone) if persistent caching is disabled or the identifier of `Q` is absent from
`CacheHashes`, and not at all (the record is the one before the call, and no request is
sent) if caching is enabled and the identifier is present. In the first case the one
invocation sends one request unless `http.NewRequest` rejects the address. -/
theorem C1_query_invokes_transport (env : Env) (r : Repository) (w : World) (Q : String) :
    (Query ParseJSON env r w Q).2.2.calls =
        (if r.CacheDefault = false ∨ r.CacheHashes (hashString Q) = false then w.calls ++ [Q]
         else w.calls)
      ∧ (Query ParseJSON env r w Q).2.2.posts =
        (if (r.CacheDefault = false ∨ r.CacheHashes (hashString Q) = false)
            ∧ env.NewRequest r.Endpoint = none
         then w.posts ++ [(r.Client, r.Endpoint, Q)]
         else w.posts) :=
  Query_log ParseJSON env r w Q

/-- C2, at the failing input: on a repository with persistent caching disabled, each of two
successive `Query(Q)`, with the transport and the file operations succeeding, sends its own
request: two network calls in all, the second not suppressed by the index, although the
first call has put the identifier of `Q` in `CacheHashes`. -/
theorem C2_disabled_cache_queries_twice :
    (Query sampleParse (sampleEnv "body") (sampleRepo false) emptyWorld "Q").2.1.CacheHashes
        (hashString "Q") = true
      ∧ (Query sampleParse (sampleEnv "body")
          (Query sampleParse (sampleEnv "body") (sampleRepo false) emptyWorld "Q").2.1
          (Query sampleParse (sampleEnv "body") (sampleRepo false) emptyWorld "Q").2.2
          "Q").2.2.posts
        = [(http.DefaultClient, "http://localhost/sparql", "Q"),
           (http.DefaultClient, "http://localhost/sparql", "Q")] := by
  have h1 := Query_miss_ok sampleParse (sampleEnv "body") (sampleRepo false) emptyWorld "Q" "body"
    rfl rfl ⟨rfl, rfl, rfl, rfl⟩
  rw [h1]
  constructor
  · simp [markHash]
  · have h2 := (Query_log sampleParse (sampleEnv "body")
      { sampleRepo false with
        CacheHashes := markHash (sampleRepo false).CacheHashes (hashString "Q") }
      ((QueryCall (sampleEnv "body") (sampleRepo false) emptyWorld "Q").2.stored "Q" "body")
      "Q").2
    rw [h2]
    rfl

/-- C3: with persistent caching enabled and the identifier of `Q` not yet in the index, if the
transport call and the file operations succeed, two successive `Query(Q)` send exactly one
request in all (and invoke `QueryCall` once), and the second call returns what the first
returned: the parse of the stored body. -/
theorem C3_query_twice_cached (env1 env2 : Env) (r : Repository) (w : World) (Q body : String)
    (hcache : r.CacheDefault = true) (hnew : r.CacheHashes (hashString Q) = false)
    (hcall : (QueryCall env1 r w Q).1 = .ok body) (hfs : env1.filesOk)
    (hopen : env2.Open = none) :
    (Query ParseJSON env2 (Query ParseJSON env1 r w Q).2.1 (Query ParseJSON env1 r w Q).2.2
        Q).2.2.posts = w.posts ++ [(r.Client, r.Endpoint, Q)]
      ∧ (Query ParseJSON env2 (Query ParseJSON env1 r w Q).2.1 (Query ParseJSON env1 r w Q).2.2
        Q).2.2.calls = w.calls ++ [Q]
      ∧ (Query ParseJSON env2 (Query ParseJSON env1 r w Q).2.1 (Query ParseJSON env1 r w Q).2.2
        Q).1 = (Query ParseJSON env1 r w Q).1
      ∧ (Query ParseJSON env1 r w Q).1 = ParseJSON body := by
  have hmiss : r.misses Q = true := by simp [Repository.misses, hcache, hnew]
  rw [Query_miss_ok ParseJSON env1 r w Q body hmiss hcall hfs]
  have hhit : Repository.misses
      { r with CacheHashes := markHash r.CacheHashes (hashString Q) } Q = false := by
    simp [Repository.misses, hcache, markHash]
  dsimp only
  rw [Query_hit ParseJSON env2 _ _ Q hhit,
    readEntry_eq ParseJSON env2 _ _ _ body hopen (World.read_stored _ _ _)]
  refine ⟨?_, ?_, rfl, rfl⟩
  · exact QueryCall_ok_posts env1 r w Q body hcall
  · exact QueryCall_calls env1 r w Q

/-- C4: when `Query(Q)` takes the miss path, the transport call returns the body `B` and the
file operations succeed, then afterwards the file at `CacheLocation + hex(sha256(Q)) + ".json"`
holds exactly `B`, the identifier has 64 characters, all of them hexadecimal digits, it is in
the index, and the rows returned are the parse of `B`. -/
theorem C4_miss_stores_body (env : Env) (r : Repository) (w : World) (Q B : String)
    (hmiss : (!r.CacheDefault || !r.CacheHashes (hashString Q)) = true)
    (hcall : (QueryCall env r w Q).1 = .ok B) (hfs : env.filesOk) :
    (Query ParseJSON env r w Q).2.2.read
        (CacheLocation ++ hex.EncodeToString (sha256.Sum256 (bytes Q)) ++ ".json") = some B
      ∧ (hex.EncodeToString (sha256.Sum256 (bytes Q))).length = 64
      ∧ (∀ c ∈ (hex.EncodeToString (sha256.Sum256 (bytes Q))).data,
          c ∈ "0123456789abcdef".data)
      ∧ (Query ParseJSON env r w Q).2.1.CacheHashes
          (hex.EncodeToString (sha256.Sum256 (bytes Q))) = true
      ∧ (Query ParseJSON env r w Q).1 = ParseJSON B := by
  rw [Query_miss_ok ParseJSON env r w Q B hmiss hcall hfs]
  refine ⟨World.read_write_same _ _ _, hashString_length Q, hashString_hex Q, ?_, rfl⟩
  simp [markHash, hashString]

/-- C5: if the transport call made by `Query(Q)` fails, then `Query` returns that error, the
files and the directories are the ones before the call, the repository (its index included)
is unchanged, and a subsequent `Query(Q)` on the same repository invokes the transport layer
again, whatever the outside does then, and sends a request again unless `http.NewRequest`
rejects the address. -/
theorem C5_transport_failure_not_cached (env : Env) (r : Repository) (w : World) (Q : String)
    (err : Error) (hmiss : (!r.CacheDefault || !r.CacheHashes (hashString Q)) = true)
    (hfail : (QueryCall env r w Q).1 = .error err) :
    (Query ParseJSON env r w Q).1 = .error err
      ∧ (Query ParseJSON env r w Q).2.2.files = w.files
      ∧ (Query ParseJSON env r w Q).2.2.dirs = w.dirs
      ∧ (Query ParseJSON env r w Q).2.1 = r
      ∧ ∀ env2 : Env,
          (Query ParseJSON env2 (Query ParseJSON env r w Q).2.1 (Query ParseJSON env r w Q).2.2
            Q).2.2.calls = w.calls ++ [Q] ++ [Q]
          ∧ (Query ParseJSON env2 (Query ParseJSON env r w Q).2.1
              (Query ParseJSON env r w Q).2.2 Q).2.2.posts
            = (if env2.NewRequest r.Endpoint = none
               then (Query ParseJSON env r w Q).2.2.posts ++ [(r.Client, r.Endpoint, Q)]
               else (Query ParseJSON env r w Q).2.2.posts) := by
  rw [Query_miss_error ParseJSON env r w Q err hmiss hfail]
  refine ⟨rfl, (QueryCall_files env r w Q).1, (QueryCall_files env r w Q).2.1, rfl, ?_⟩
  intro env2
  rw [(Query_miss_log ParseJSON env2 r _ Q hmiss).1, (Query_miss_log ParseJSON env2 r _ Q hmiss).2,
    QueryCall_calls, QueryCall_calls, QueryCall_posts env2]
  exact ⟨rfl, rfl⟩

end

/-- Witness of C3: a repository with caching enabled and an empty index, an endpoint that
answers `body`, a machine without files. -/
theorem C3_query_twice_cached_witness :
    (sampleRepo true).CacheDefault = true
      ∧ (sampleRepo true).CacheHashes (hashString "Q") = false
      ∧ (QueryCall (sampleEnv "body") (sampleRepo true) emptyWorld "Q").1 = .ok "body"
      ∧ (sampleEnv "body").filesOk
      ∧ (Query sampleParse (sampleEnv "body")
          (Query sampleParse (sampleEnv "body") (sampleRepo true) emptyWorld "Q").2.1
          (Query sampleParse (sampleEnv "body") (sampleRepo true) emptyWorld "Q").2.2
          "Q").2.2.posts = [(http.DefaultClient, "http://localhost/sparql", "Q")]
      ∧ (Query sampleParse (sampleEnv "body")
          (Query sampleParse (sampleEnv "body") (sampleRepo true) emptyWorld "Q").2.1
          (Query sampleParse (sampleEnv "body") (sampleRepo true) emptyWorld "Q").2.2
          "Q").2.2.calls = ["Q"]
      ∧ (Query sampleParse (sampleEnv "body")
          (Query sampleParse (sampleEnv "body") (sampleRepo true) emptyWorld "Q").2.1
          (Query sampleParse (sampleEnv "body") (sampleRepo true) emptyWorld "Q").2.2
          "Q").1 = (Query sampleParse (sampleEnv "body") (sampleRepo true) emptyWorld "Q").1
      ∧ (Query sampleParse (sampleEnv "body") (sampleRepo true) emptyWorld "Q").1
          = .ok ["body"] :=
  ⟨rfl, rfl, rfl, ⟨rfl, rfl, rfl, rfl⟩,
    C3_query_twice_cached sampleParse (sampleEnv "body") (sampleEnv "body") (sampleRepo true)
      emptyWorld "Q" "body" rfl rfl rfl ⟨rfl, rfl, rfl, rfl⟩ rfl⟩

/-- Witness of C4: the miss of a repository with caching enabled and an empty index. -/
theorem C4_miss_stores_body_witness :
    (!(sampleRepo true).CacheDefault || !(sampleRepo true).CacheHashes (hashString "Q")) = true
      ∧ (QueryCall (sampleEnv "body") (sampleRepo true) emptyWorld "Q").1 = .ok "body"
      ∧ (sampleEnv "body").filesOk
      ∧ (Query sampleParse (sampleEnv "body") (sampleRepo true) emptyWorld "Q").2.2.read
          (CacheLocation ++ hex.EncodeToString (sha256.Sum256 (bytes "Q")) ++ ".json")
          = some "body"
      ∧ (hex.EncodeToString (sha256.Sum256 (bytes "Q"))).length = 64
      ∧ (∀ c ∈ (hex.EncodeToString (sha256.Sum256 (bytes "Q"))).data,
          c ∈ "0123456789abcdef".data)
      ∧ (Query sampleParse (sampleEnv "body") (sampleRepo true) emptyWorld "Q").2.1.CacheHashes
          (hex.EncodeToString (sha256.Sum256 (bytes "Q"))) = true
      ∧ (Query sampleParse (sampleEnv "body") (sampleRepo true) emptyWorld "Q").1
          = .ok ["body"] :=
  ⟨rfl, rfl, ⟨rfl, rfl, rfl, rfl⟩,
    C4_miss_stores_body sampleParse (sampleEnv "body") (sampleRepo true) emptyWorld "Q" "body"
      rfl rfl ⟨rfl, rfl, rfl, rfl⟩⟩

/-- Witness of C5: the endpoint answers with status 500. -/
theorem C5_transport_failure_not_cached_witness :
    (!(sampleRepo false).CacheDefault || !(sampleRepo false).CacheHashes (hashString "Q")) = true
      ∧ (QueryCall failingEnv (sampleRepo false) emptyWorld "Q").1
          = .error "Received bad response from SPARQL endpoint."
      ∧ (Query sampleParse failingEnv (sampleRepo false) emptyWorld "Q").1
          = .error "Received bad response from SPARQL endpoint."
      ∧ (Query sampleParse failingEnv (sampleRepo false) emptyWorld "Q").2.2.files = []
      ∧ (Query sampleParse failingEnv (sampleRepo false) emptyWorld "Q").2.2.dirs = []
      ∧ (Query sampleParse failingEnv (sampleRepo false) emptyWorld "Q").2.1 = sampleRepo false
      ∧ ∀ env2 : Env,
          (Query sampleParse env2
            (Query sampleParse failingEnv (sampleRepo false) emptyWorld "Q").2.1
            (Query sampleParse failingEnv (sampleRepo false) emptyWorld "Q").2.2
            "Q").2.2.calls = ["Q", "Q"]
          ∧ (Query sampleParse env2
              (Query sampleParse failingEnv (sampleRepo false) emptyWorld "Q").2.1
              (Query sampleParse failingEnv (sampleRepo false) emptyWorld "Q").2.2
              "Q").2.2.posts
            = (if env2.NewRequest "http://localhost/sparql" = none
               then (Query sampleParse failingEnv (sampleRepo false) emptyWorld "Q").2.2.posts
                 ++ [(http.DefaultClient, "http://localhost/sparql", "Q")]
               else (Query sampleParse failingEnv (sampleRepo false) emptyWorld "Q").2.2.posts) :=
  ⟨rfl, rfl,
    C5_transport_failure_not_cached sampleParse failingEnv (sampleRepo false) emptyWorld "Q"
      "Received bad response from SPARQL endpoint." rfl rfl⟩

section
variable {Row : Type} (ParseJSON : String → Except Error (List Row))

/-- C6: when the file `queries/<name>.rq` exists with text `T` and is read without error,
`DynamicQuery(name, A)` returns exactly what `Query` returns on `strings.Replace(T, ph, A, 1)`,
`ph` being the placeholder (after the trace line is printed). That text is `T` with the first
occurrence of the placeholder alone replaced by `A` as it is: if `T` is `pre ++ ph ++ post`
and no occurrence starts before the end of `pre`, it is `pre ++ A ++ post`, so that any
further occurrence, in `post`, stays; if `T` has no placeholder it is `T`. The text
`SELECT * WHERE { ?s ?p "ph" }` with `42` gives `SELECT * WHERE { ?s ?p "42" }`. -/
theorem C6_dynamic_query_first_placeholder (env : Env) (r : Repository) (w : World)
    (name T A : String)
    (hfile : w.read ("queries/" ++ name ++ ".rq") = some T)
    (hstat : env.Stat = none) (hread : env.ReadFile = none) :
    DynamicQuery ParseJSON env r w name A
        = Query ParseJSON env r
            (Println ("Issuing dynamic query " ++ name ++ " with argument " ++ A) w)
            (strings.Replace T "\x7b\x7b.\x7d\x7d" A 1)
      ∧ (∀ pre post : String, T = pre ++ "\x7b\x7b.\x7d\x7d" ++ post →
          (∀ k, k < pre.length → ¬ "\x7b\x7b.\x7d\x7d".data <+: T.data.drop k) →
          strings.Replace T "\x7b\x7b.\x7d\x7d" A 1 = pre ++ A ++ post)
      ∧ (¬ "\x7b\x7b.\x7d\x7d".data <:+: T.data →
          strings.Replace T "\x7b\x7b.\x7d\x7d" A 1 = T)
      ∧ strings.Replace "SELECT * WHERE \x7b ?s ?p \"\x7b\x7b.\x7d\x7d\" \x7d"
          "\x7b\x7b.\x7d\x7d" "42" 1 = "SELECT * WHERE \x7b ?s ?p \"42\" \x7d" := by
  refine ⟨?_, ?_, ?_, by decide⟩
  · have hfile' : (Println ("Issuing dynamic query " ++ name ++ " with argument " ++ A) w).read
        ("queries/" ++ name ++ ".rq") = some T := hfile
    unfold DynamicQuery
    simp only [os.Stat, hstat, hfile', Option.isSome_some, true_or, if_true, ioutil.ReadFile,
      hread]
    rcases Query ParseJSON env r _ _ with ⟨res, r1, w1⟩
    cases res <;> rfl
  · intro pre post hT hfirst
    by_cases hA : "\x7b\x7b.\x7d\x7d" = A
    · subst hA
      simp [strings.Replace, hT]
    · rw [strings.Replace_one _ _ _ hA (by decide)]
      apply String.ext
      subst hT
      simp only [String.data_append] at hfirst ⊢
      exact strings.replaceFrom_first _ _ (by decide) _ _ hfirst
  · intro hnone
    by_cases hA : "\x7b\x7b.\x7d\x7d" = A
    · simp [strings.Replace, hA]
    · rw [strings.Replace_one _ _ _ hA (by decide)]
      apply String.ext
      exact strings.replaceFrom_none _ _ _ _ hnone

/-- C7, at the failing input: `NewRepository` called with a client of the caller's own
succeeds and returns a repository with the given endpoint and caching flag, but its client
is `http.DefaultClient`, not the client that was passed. -/
theorem C7_injected_client_dropped :
    (NewRepository (sampleEnv "") emptyWorld "http://localhost/sparql" ⟨7⟩ false).toOption.map
        (fun r => (r.Endpoint, r.Client, r.CacheDefault))
        = some ("http://localhost/sparql", http.DefaultClient, false)
      ∧ http.DefaultClient ≠ (⟨7⟩ : HttpClient) := by
  decide

/-- C8 as stated fails: with an entry file for `Q` already there, holding `old`, a `Query(Q)`
that misses, whether caching is disabled or the index does not know the entry, writes the
new response over it. -/
theorem C8_existing_entry_overwritten :
    staleWorld.read (queryCacheLocation "Q") = some "old"
      ∧ (Query sampleParse (sampleEnv "new") (sampleRepo false) staleWorld "Q").2.2.read
          (queryCacheLocation "Q") = some "new"
      ∧ (Query sampleParse (sampleEnv "new") (sampleRepo true) staleWorld "Q").2.2.read
          (queryCacheLocation "Q") = some "new" := by
  refine ⟨by simp [World.read, staleWorld], ?_, ?_⟩
  · rw [Query_miss_ok sampleParse (sampleEnv "new") (sampleRepo false) staleWorld "Q" "new"
      rfl rfl ⟨rfl, rfl, rfl, rfl⟩]
    exact World.read_stored _ _ _
  · rw [Query_miss_ok sampleParse (sampleEnv "new") (sampleRepo true) staleWorld "Q" "new"
      rfl rfl ⟨rfl, rfl, rfl, rfl⟩]
    exact World.read_stored _ _ _

/-- C8, amended: for every repository state and query text `Q`, `Query(Q)` deletes no file
(a file present before the call, the entry at the cache path of `Q` included, is present
after it) and leaves every file other than the entry of `Q` with its contents, whatever the
outside does; it leaves all files as they are, the entry of `Q` included, on a hit (caching
enabled and the identifier in the index) and whenever the transport call, `os.MkdirAll` or
`os.Create` fails. When the identifier is not in the index and the transport call and the
file operations succeed, the entry of `Q` holds the body just received, whatever it held
before. Nothing is said of the contents of the entry of `Q` after a call made with caching
disabled and the identifier already in the index. -/
theorem C8_only_own_entry_rewritten (env : Env) (r : Repository) (w : World) (Q : String) :
    (∀ p : String, (w.read p).isSome = true →
        ((Query ParseJSON env r w Q).2.2.read p).isSome = true)
      ∧ (∀ p : String, p ≠ CacheLocation ++ hashString Q ++ ".json" →
        (Query ParseJSON env r w Q).2.2.read p = w.read p)
      ∧ (r.CacheDefault = true → r.CacheHashes (hashString Q) = true →
        (Query ParseJSON env r w Q).2.2.files = w.files)
      ∧ ((∃ err, (QueryCall env r w Q).1 = .error err) ∨ env.MkdirAll ≠ none
          ∨ env.Create ≠ none →
        (Query ParseJSON env r w Q).2.2.files = w.files)
      ∧ (∀ B : String, r.CacheHashes (hashString Q) = false →
        (QueryCall env r w Q).1 = .ok B → env.filesOk →
        (Query ParseJSON env r w Q).2.2.read (CacheLocation ++ hashString Q ++ ".json")
          = some B) := by
  refine ⟨?_, ?_, ?_, ?_, ?_⟩
  · intro p hp
    exact Query_keeps_files ParseJSON env r w Q p hp
  · intro p hp
    by_cases h : r.misses Q = true
    · exact Query_miss_frame ParseJSON env r w Q p h hp
    · have h' : r.misses Q = false := by simpa using h
      rw [Query_hit ParseJSON env r w Q h', readEntry_state]
  · intro hc hh
    have h' : r.misses Q = false := by simp [Repository.misses, hc, hh]
    rw [Query_hit ParseJSON env r w Q h', readEntry_state]
  · intro h
    exact Query_stops_before_create ParseJSON env r w Q h
  · intro B hnew hcall hfs
    have hmiss : r.misses Q = true := by simp [Repository.misses, hnew]
    rw [Query_miss_ok ParseJSON env r w Q B hmiss hcall hfs]
    exact World.read_stored _ _ _

/-- C9, at the failing input: the transport call and the write succeed and `Sync` fails; then
`Query` returns the parsed rows and no error, and the identifier of `Q` is in the index. -/
theorem C9_sync_failure_ignored :
    syncFailingEnv.Sync = some "sync: input/output error"
      ∧ (Query sampleParse syncFailingEnv (sampleRepo true) emptyWorld "Q").1 = .ok ["body"]
      ∧ (sampleRepo true).CacheHashes (hashString "Q") = false
      ∧ (Query sampleParse syncFailingEnv (sampleRepo true) emptyWorld "Q").2.1.CacheHashes
          (hashString "Q") = true := by
  rw [Query_miss_ok sampleParse syncFailingEnv (sampleRepo true) emptyWorld "Q" "body"
    rfl rfl ⟨rfl, rfl, rfl, rfl⟩]
  refine ⟨rfl, rfl, rfl, ?_⟩
  simp [markHash]

/-- C10: if the cache directory holds the entry file of `Q`, the one a successful `Query(Q)`
writes, named `hex(sha256(Q)) + ".json"`, then `NewRepository` with caching enabled, if the
directory can be listed, succeeds with the identifier of `Q` in its index (the name of the
file with `.json` stripped is the identifier), and `Query(Q)` on that repository, if the file
opens, invokes no transport, sends no request and returns the parse of the stored file. -/
theorem C10_persistence_round_trip (env0 env : Env) (w : World) (endpoint : String)
    (client : HttpClient) (Q C : String)
    (hfile : w.read (CacheLocation ++ hashString Q ++ ".json") = some C)
    (hdir : env0.ReadDir = none) (hopen : env.Open = none) :
    ∃ r : Repository, NewRepository env0 w endpoint client true = .ok r
      ∧ strings.Replace (hashString Q ++ ".json") ".json" "" 1 = hashString Q
      ∧ r.CacheHashes (hashString Q) = true
      ∧ (Query ParseJSON env r w Q).2.2.calls = w.calls
      ∧ (Query ParseJSON env r w Q).2.2.posts = w.posts
      ∧ (Query ParseJSON env r w Q).1 = ParseJSON C := by
  obtain ⟨names, hnames, hmem⟩ := ReadDir_entry env0 w Q C hdir hfile
  have hidx := markHash_foldl_mem names
    { Endpoint := endpoint, Client := http.DefaultClient, CacheDefault := true,
      CacheHashes := fun _ => false } _ hmem
  rw [Replace_entryName] at hidx
  have hflag := markHash_foldl_fields names
    { Endpoint := endpoint, Client := http.DefaultClient, CacheDefault := true,
      CacheHashes := fun _ => false }
  refine ⟨_, ?_, Replace_entryName Q, hidx, ?_⟩
  · simp only [NewRepository, if_true, hnames]
  · have hhit : ∀ r : Repository, r.CacheDefault = true →
        r.CacheHashes (hashString Q) = true → r.misses Q = false := by
      intro r h1 h2
      simp [Repository.misses, h1, h2]
    rw [Query_hit ParseJSON env _ w Q (hhit _ hflag hidx),
      readEntry_eq ParseJSON env _ w (queryCacheLocation Q) C hopen hfile]
    exact ⟨rfl, rfl, rfl⟩

end

/-- Witness of C6: the query file `byId` with the argument `42`, and the query file `all`,
which has no placeholder. -/
theorem C6_dynamic_query_first_placeholder_witness :
    templateWorld.read ("queries/" ++ "byId" ++ ".rq")
        = some "SELECT * WHERE \x7b ?s ?p \"\x7b\x7b.\x7d\x7d\" \x7d"
      ∧ DynamicQuery sampleParse (sampleEnv "body") (sampleRepo false) templateWorld "byId" "42"
        = Query sampleParse (sampleEnv "body") (sampleRepo false)
            (Println ("Issuing dynamic query " ++ "byId" ++ " with argument " ++ "42")
              templateWorld)
            (strings.Replace "SELECT * WHERE \x7b ?s ?p \"\x7b\x7b.\x7d\x7d\" \x7d"
              "\x7b\x7b.\x7d\x7d" "42" 1)
      ∧ strings.Replace "SELECT * WHERE \x7b ?s ?p \"\x7b\x7b.\x7d\x7d\" \x7d"
          "\x7b\x7b.\x7d\x7d" "42" 1 = "SELECT * WHERE \x7b ?s ?p \"" ++ "42" ++ "\" \x7d"
      ∧ strings.Replace "SELECT * WHERE \x7b ?s ?p ?o \x7d" "\x7b\x7b.\x7d\x7d" "42" 1
          = "SELECT * WHERE \x7b ?s ?p ?o \x7d" :=
  ⟨by decide,
    (C6_dynamic_query_first_placeholder sampleParse (sampleEnv "body") (sampleRepo false)
      templateWorld "byId" "SELECT * WHERE \x7b ?s ?p \"\x7b\x7b.\x7d\x7d\" \x7d" "42"
      (by decide) rfl rfl).1,
    (C6_dynamic_query_first_placeholder sampleParse (sampleEnv "body") (sampleRepo false)
      templateWorld "byId" "SELECT * WHERE \x7b ?s ?p \"\x7b\x7b.\x7d\x7d\" \x7d" "42"
      (by decide) rfl rfl).2.1 "SELECT * WHERE \x7b ?s ?p \"" "\" \x7d" (by decide) (by decide),
    (C6_dynamic_query_first_placeholder sampleParse (sampleEnv "body") (sampleRepo false)
      templateWorld "all" "SELECT * WHERE \x7b ?s ?p ?o \x7d" "42"
      (by decide) rfl rfl).2.2.1 (by decide)⟩

theorem notes_ne_entry : "notes.txt" ≠ CacheLocation ++ hashString "Q" ++ ".json" := by
  intro h
  have h2 := congrArg (fun s => s.data.head?) h
  simp [CacheLocation, String.data_append] at h2

theorem staleWorld_entry : staleWorld.read (queryCacheLocation "Q") = some "old" := by
  simp [World.read, staleWorld]

/-- Witness of C8, amended: a machine with an old entry for `Q` and another file. A miss
with the identifier unknown keeps both files, leaves the other one as it is and rewrites the
entry; a hit and a call whose transport fails leave both as they are. -/
theorem C8_only_own_entry_rewritten_witness :
    (staleWorld.read (queryCacheLocation "Q")).isSome = true
      ∧ ((Query sampleParse (sampleEnv "new") (sampleRepo false) staleWorld "Q").2.2.read
          (queryCacheLocation "Q")).isSome = true
      ∧ "notes.txt" ≠ CacheLocation ++ hashString "Q" ++ ".json"
      ∧ (Query sampleParse (sampleEnv "new") (sampleRepo false) staleWorld "Q").2.2.read
          "notes.txt" = staleWorld.read "notes.txt"
      ∧ knowingRepo.CacheDefault = true
      ∧ knowingRepo.CacheHashes (hashString "Q") = true
      ∧ (Query sampleParse (sampleEnv "new") knowingRepo staleWorld "Q").2.2.files
          = staleWorld.files
      ∧ (QueryCall failingEnv (sampleRepo false) staleWorld "Q").1
          = .error "Received bad response from SPARQL endpoint."
      ∧ (Query sampleParse failingEnv (sampleRepo false) staleWorld "Q").2.2.files
          = staleWorld.files
      ∧ (sampleRepo false).CacheHashes (hashString "Q") = false
      ∧ (Query sampleParse (sampleEnv "new") (sampleRepo false) staleWorld "Q").2.2.read
          (CacheLocation ++ hashString "Q" ++ ".json") = some "new" :=
  ⟨by rw [staleWorld_entry]; rfl,
    (C8_only_own_entry_rewritten sampleParse (sampleEnv "new") (sampleRepo false) staleWorld
      "Q").1 (queryCacheLocation "Q") (by rw [staleWorld_entry]; rfl),
    notes_ne_entry,
    (C8_only_own_entry_rewritten sampleParse (sampleEnv "new") (sampleRepo false) staleWorld
      "Q").2.1 "notes.txt" notes_ne_entry,
    rfl, rfl,
    (C8_only_own_entry_rewritten sampleParse (sampleEnv "new") knowingRepo staleWorld
      "Q").2.2.1 rfl rfl,
    rfl,
    (C8_only_own_entry_rewritten sampleParse failingEnv (sampleRepo false) staleWorld
      "Q").2.2.2.1 (Or.inl ⟨_, rfl⟩),
    rfl,
    (C8_only_own_entry_rewritten sampleParse (sampleEnv "new") (sampleRepo false) staleWorld
      "Q").2.2.2.2 "new" rfl rfl ⟨rfl, rfl, rfl, rfl⟩⟩

theorem laterWorld_entry :
    laterWorld.read (CacheLocation ++ hashString "Q" ++ ".json") = some "body" := by
  unfold laterWorld
  rw [Query_miss_ok sampleParse (sampleEnv "body") (sampleRepo false) emptyWorld "Q" "body"
    rfl rfl ⟨rfl, rfl, rfl, rfl⟩]
  exact World.read_stored _ _ _

/-- Witness of C10: the machine left by a run that queried `Q`, then a new repository with
caching enabled on it. -/
theorem C10_persistence_round_trip_witness :
    laterWorld.read (CacheLocation ++ hashString "Q" ++ ".json") = some "body"
      ∧ ∃ r : Repository,
        NewRepository (sampleEnv "") laterWorld "http://localhost/sparql" ⟨7⟩ true = .ok r
          ∧ strings.Replace (hashString "Q" ++ ".json") ".json" "" 1 = hashString "Q"
          ∧ r.CacheHashes (hashString "Q") = true
          ∧ (Query sampleParse (sampleEnv "") r laterWorld "Q").2.2.calls = laterWorld.calls
          ∧ (Query sampleParse (sampleEnv "") r laterWorld "Q").2.2.posts = laterWorld.posts
          ∧ (Query sampleParse (sampleEnv "") r laterWorld "Q").1 = .ok ["body"] :=
  ⟨laterWorld_entry,
    C10_persistence_round_trip sampleParse (sampleEnv "") (sampleEnv "") laterWorld
      "http://localhost/sparql" ⟨7⟩ "Q" "body" laterWorld_entry rfl rfl⟩
